import Mathlib

/-!
Shallow embedding of the `news_summary` repository (files `news_pipeline.py`
and `crawl_apnews.py`).  Python values produced by `json.loads` are embedded
as `PyJson`; Python exceptions crossing a function boundary are embedded as
`Except PyError`.  External effects (the Selenium driver, HTTP fetches, the
LLM call, the Jinja template file, the clock) are parameters of explicit
environment records; everything the repository's own code does with those
results is translated function by function.
-/

set_option maxRecDepth 4000
set_option linter.unusedVariables false

/-- Python exceptions, as far as the embedded code distinguishes them.
`jsonDecode` is `json.JSONDecodeError` (the only class caught by
`SummaryParser.parse`); `typeError` is `TypeError`; `keyError` is `KeyError`;
the remaining constructors stand for failures of external libraries
(Selenium timeouts / driver errors, `requests` errors, file-system errors). -/
inductive PyError where
  | jsonDecode : PyError
  | typeError : PyError
  | keyError (k : String) : PyError
  | timeoutError : PyError
  | webDriverError : PyError
  | ioError : PyError
deriving Repr, DecidableEq

/-- The result of Python's `str(e)` on an exception, used by the
`print(f"Error: {str(e)}")` report in `extract_entities_and_summary`. -/
def pyErrorMsg : PyError → String
  | .jsonDecode => "JSONDecodeError"
  | .typeError => "TypeError"
  | .keyError k => "KeyError: " ++ k
  | .timeoutError => "TimeoutException"
  | .webDriverError => "WebDriverException"
  | .ioError => "OSError"

/-- Python values that `json.loads` can return.  Numeric literals are kept as
their lexeme (the pipeline never computes with numbers, only passes them
through). -/
inductive PyJson where
  | null : PyJson
  | bool (b : Bool) : PyJson
  | num (lit : String) : PyJson
  | str (s : String) : PyJson
  | arr (elems : List PyJson) : PyJson
  | obj (entries : List (String × PyJson)) : PyJson

/-- Python `dict` key containment (`k in d`). -/
def dictContains (kvs : List (String × PyJson)) (k : String) : Bool :=
  kvs.any (fun p => k == p.1)

/-- Python `dict` assignment `d[k] = v`: if the key exists its value is
replaced in place, otherwise the pair is appended (insertion order). -/
def dictInsert (kvs : List (String × PyJson)) (k : String) (v : PyJson) :
    List (String × PyJson) :=
  if dictContains kvs k then
    kvs.map (fun p => if p.1 == k then (k, v) else p)
  else
    kvs ++ [(k, v)]

-- Brace characters, named so they can be compared against input characters.
def lbrace : Char := Char.ofNat 123

def rbrace : Char := Char.ofNat 125

def lbrack : Char := Char.ofNat 91

def rbrack : Char := Char.ofNat 93

/-- JSON insignificant whitespace (space, tab, newline, carriage return),
as skipped by Python's `json` scanner. -/
def skipWs : List Char → List Char
  | [] => []
  | c :: rest =>
    if c = ' ' ∨ c = '\t' ∨ c = '\n' ∨ c = '\r' then skipWs rest else c :: rest

def hexVal (c : Char) : Option Nat :=
  if '0' ≤ c ∧ c ≤ '9' then some (c.toNat - '0'.toNat)
  else if 'a' ≤ c ∧ c ≤ 'f' then some (c.toNat - 'a'.toNat + 10)
  else if 'A' ≤ c ∧ c ≤ 'F' then some (c.toNat - 'A'.toNat + 10)
  else none

/-- Body of a JSON string literal (after the opening quote), with the escape
sequences of the JSON grammar; unescaped control characters are rejected
(Python's strict default). -/
def scanStringAux : List Char → List Char → Option (String × List Char)
  | _, [] => none
  | acc, c :: rest =>
    if c = '"' then some (String.mk acc.reverse, rest)
    else if c = '\\' then
      match rest with
      | [] => none
      | e :: rest2 =>
        if e = '"' then scanStringAux ('"' :: acc) rest2
        else if e = '\\' then scanStringAux ('\\' :: acc) rest2
        else if e = '/' then scanStringAux ('/' :: acc) rest2
        else if e = 'b' then scanStringAux ('\x08' :: acc) rest2
        else if e = 'f' then scanStringAux ('\x0c' :: acc) rest2
        else if e = 'n' then scanStringAux ('\n' :: acc) rest2
        else if e = 'r' then scanStringAux ('\r' :: acc) rest2
        else if e = 't' then scanStringAux ('\t' :: acc) rest2
        else if e = 'u' then
          match rest2 with
          | h1 :: h2 :: h3 :: h4 :: rest3 =>
            match hexVal h1, hexVal h2, hexVal h3, hexVal h4 with
            | some a, some b, some c2, some d =>
              scanStringAux (Char.ofNat (((a * 16 + b) * 16 + c2) * 16 + d) :: acc) rest3
            | _, _, _, _ => none
          | _ => none
        else none
    else if c.toNat < 32 then none
    else scanStringAux (c :: acc) rest

def isDigit (c : Char) : Bool := '0' ≤ c ∧ c ≤ '9'

def takeDigits : List Char → List Char × List Char
  | [] => ([], [])
  | c :: rest =>
    if isDigit c then
      let (ds, r) := takeDigits rest
      (c :: ds, r)
    else ([], c :: rest)

/-- The `int` part of the JSON number grammar: `0` or a nonzero digit
followed by digits (leading zeros rejected). -/
def scanIntPart : List Char → Option (List Char × List Char)
  | [] => none
  | c :: rest =>
    if c = '0' then some ([c], rest)
    else if isDigit c then
      let (ds, r) := takeDigits rest
      some (c :: ds, r)
    else none

def scanFracPart : List Char → Option (List Char × List Char)
  | '.' :: rest =>
    match takeDigits rest with
    | ([], _) => none
    | (ds, r) => some ('.' :: ds, r)
  | cs => some ([], cs)

def scanExpPart : List Char → Option (List Char × List Char)
  | c :: rest =>
    if c = 'e' ∨ c = 'E' then
      match rest with
      | s :: rest2 =>
        if s = '+' ∨ s = '-' then
          match takeDigits rest2 with
          | ([], _) => none
          | (ds, r) => some (c :: s :: ds, r)
        else
          match takeDigits rest with
          | ([], _) => none
          | (ds, r) => some (c :: ds, r)
      | [] => none
    else some ([], c :: rest)
  | [] => some ([], [])

/-- A JSON numeric literal, returned as its lexeme. -/
def scanNumber (cs : List Char) : Option (String × List Char) :=
  match cs with
  | '-' :: rest => do
    let (i, r1) ← scanIntPart rest
    let (f, r2) ← scanFracPart r1
    let (e, r3) ← scanExpPart r2
    some (String.mk ('-' :: (i ++ f ++ e)), r3)
  | _ => do
    let (i, r1) ← scanIntPart cs
    let (f, r2) ← scanFracPart r1
    let (e, r3) ← scanExpPart r2
    some (String.mk (i ++ f ++ e), r3)

def isLitPrefix (lit : List Char) (cs : List Char) : Option (List Char) :=
  match lit, cs with
  | [], rest => some rest
  | l :: ls, c :: rest => if c = l then isLitPrefix ls rest else none
  | _ :: _, [] => none

mutual

/-- One JSON value, fuel-indexed recursive descent modelling Python's
`json.loads` grammar (`NaN`/`Infinity` accepted, as in Python's default). -/
def scanValue : Nat → List Char → Option (PyJson × List Char)
  | 0, _ => none
  | fuel + 1, cs =>
    match skipWs cs with
    | [] => none
    | c :: rest =>
      if c = '"' then
        match scanStringAux [] rest with
        | some (s, r) => some (.str s, r)
        | none => none
      else if c = lbrace then
        match skipWs rest with
        | c2 :: rest2 =>
          if c2 = rbrace then some (.obj [], rest2)
          else scanMembers fuel (c2 :: rest2) []
        | [] => none
      else if c = lbrack then
        match skipWs rest with
        | c2 :: rest2 =>
          if c2 = rbrack then some (.arr [], rest2)
          else scanElements fuel (c2 :: rest2) []
        | [] => none
      else if c = 't' then
        match isLitPrefix ['r', 'u', 'e'] rest with
        | some r => some (.bool true, r)
        | none => none
      else if c = 'f' then
        match isLitPrefix ['a', 'l', 's', 'e'] rest with
        | some r => some (.bool false, r)
        | none => none
      else if c = 'n' then
        match isLitPrefix ['u', 'l', 'l'] rest with
        | some r => some (.null, r)
        | none => none
      else if c = 'N' then
        match isLitPrefix ['a', 'N'] rest with
        | some r => some (.num "NaN", r)
        | none => none
      else if c = 'I' then
        match isLitPrefix ['n', 'f', 'i', 'n', 'i', 't', 'y'] rest with
        | some r => some (.num "Infinity", r)
        | none => none
      else if c = '-' ∧ rest.head? = some 'I' then
        match isLitPrefix ['I', 'n', 'f', 'i', 'n', 'i', 't', 'y'] rest with
        | some r => some (.num "-Infinity", r)
        | none => none
      else
        match scanNumber (c :: rest) with
        | some (lit, r) => some (.num lit, r)
        | none => none

/-- Members of a JSON object after the opening brace (first member not yet
consumed).  Duplicate keys follow Python `dict` semantics via `dictInsert`. -/
def scanMembers : Nat → List Char → List (String × PyJson) →
    Option (PyJson × List Char)
  | 0, _, _ => none
  | fuel + 1, cs, acc =>
    match skipWs cs with
    | '"' :: rest =>
      match scanStringAux [] rest with
      | some (k, r1) =>
        match skipWs r1 with
        | ':' :: r2 =>
          match scanValue fuel r2 with
          | some (v, r3) =>
            match skipWs r3 with
            | ',' :: r4 => scanMembers fuel r4 (dictInsert acc k v)
            | c :: r4 =>
              if c = rbrace then some (.obj (dictInsert acc k v), r4) else none
            | [] => none
          | none => none
        | _ => none
      | none => none
    | _ => none

/-- Elements of a JSON array after the opening bracket (first element not yet
consumed). -/
def scanElements : Nat → List Char → List PyJson → Option (PyJson × List Char)
  | 0, _, _ => none
  | fuel + 1, cs, acc =>
    match scanValue fuel cs with
    | some (v, r1) =>
      match skipWs r1 with
      | ',' :: r2 => scanElements fuel r2 (acc ++ [v])
      | c :: r2 =>
        if c = rbrack then some (.arr (acc ++ [v]), r2) else none
      | [] => none
    | none => none

end

/-- Model of Python's `json.loads`: `none` is a raised `JSONDecodeError`. -/
def jsonLoads (text : String) : Option PyJson :=
  match scanValue (text.length + 1) text.toList with
  | some (v, rest) =>
    match skipWs rest with
    | [] => some v
    | _ :: _ => none
  | none => none

/-- Python substring test `pat in s` on strings. -/
def strContains (s pat : String) : Bool :=
  if pat = "" then true else (s.splitOn pat).length > 1

/-- Python's `field not in data` membership test, which depends on the runtime
type of `data`: key containment for a `dict`, element equality for a `list`
(a string compares equal only to an equal string), substring test for a `str`,
and `TypeError` for non-iterable values (`int`, `float`, `bool`, `None`). -/
def pyContains (d : PyJson) (k : String) : Except PyError Bool :=
  match d with
  | .obj kvs => .ok (dictContains kvs k)
  | .arr xs =>
    .ok (xs.any (fun x => match x with | .str s => s == k | _ => false))
  | .str s => .ok (strContains s k)
  | _ => .error .typeError

/-- Python's subscript assignment `data[field] = v`, a `TypeError` unless
`data` is a `dict` (for a `list` the index would have to be an integer, and
`str` does not support item assignment). -/
def pySetItem (d : PyJson) (k : String) (v : PyJson) : Except PyError PyJson :=
  match d with
  | .obj kvs => .ok (.obj (dictInsert kvs k v))
  | _ => .error .typeError

/-- The `required_fields` list of `SummaryParser.parse`. -/
def requiredFields : List String := ["topic", "entities", "summary", "timeline"]

/-- The `for field in required_fields` loop of `SummaryParser.parse`: check
membership, print a diagnostic and assign the sentinel when absent.  The
second component collects the printed diagnostics; a raised `TypeError`
aborts the loop (diagnostics already printed are kept). -/
def checkFields : List String → PyJson → Except PyError PyJson × List String
  | [], d => (.ok d, [])
  | f :: rest, d =>
    match pyContains d f with
    | .error e => (.error e, [])
    | .ok true => checkFields rest d
    | .ok false =>
      match pySetItem d f (.str "na") with
      | .error e => (.error e, [f ++ " is not in result"])
      | .ok d' =>
        let r := checkFields rest d'
        (r.1, (f ++ " is not in result") :: r.2)

/-- The dict literal returned by the `except json.JSONDecodeError` handler. -/
def allNa : PyJson :=
  .obj [("topic", .str "na"), ("entities", .str "na"),
        ("summary", .str "na"), ("timeline", .str "na")]

/-- `SummaryParser.parse` from `news_pipeline.py`: `json.loads` the text; on
decode failure return the all-`"na"` dict; otherwise run the required-field
loop.  First component: the returned value or the propagated exception;
second component: the printed diagnostics. -/
def SummaryParser.parse (text : String) : Except PyError PyJson × List String :=
  match jsonLoads text with
  | some d => checkFields requiredFields d
  | none => (.ok allNa, [])

/-- A fetched article record, the dict shape produced by the fetchers and
consumed by `deduplicate_news` (spec §3 RawArticle). -/
structure RawArticle where
  title : String
  url : String
  content : String
  publish_date : String
  source : String
deriving Repr, DecidableEq

/-- `news['title'][:50]`, the dedup key (spec §3 DedupKey).  Python slicing
counts code points, as does `String.take`. -/
def dedupKey (a : RawArticle) : String := a.title.take 50

/-- The loop of `NewsSummaryPipeline.deduplicate_news`, with the `seen_titles`
set of already-seen keys made explicit (only membership and insertion are
used, so a list models the Python `set`). -/
def dedupAux : List RawArticle → List String → List RawArticle
  | [], _ => []
  | news :: rest, seen =>
    if dedupKey news ∈ seen then dedupAux rest seen
    else news :: dedupAux rest (dedupKey news :: seen)

/-- `NewsSummaryPipeline.deduplicate_news` from `news_pipeline.py`. -/
def deduplicate_news (news_list : List RawArticle) : List RawArticle :=
  dedupAux news_list []

/-! ## `crawl_apnews.py` -/

/-- `max_articles_count` from `crawl_apnews.py`. -/
def max_articles_count : Nat := 20

/-- An `<a>` tag found inside a `PagePromo-title` card: its stripped text and
its `href` attribute (`none` when the attribute is missing, in which case
`a_tag['href']` raises `KeyError`). -/
structure Anchor where
  text : String
  href : Option String
deriving Repr, DecidableEq

/-- A `title`/`url` pair collected by `get_ap_news_list_selenium`. -/
structure NewsItem where
  title : String
  url : String
deriving Repr, DecidableEq

/-- External outcomes for one run of `get_ap_news_list_selenium`:
whether `webdriver.Edge(...)` constructs (this happens before the `try`),
whether `driver.get` / `WebDriverWait(...).until` / the scroll loop complete
(a timeout raises `TimeoutException`; the `finally` block only quits the
driver and re-raises), and the `PagePromo-title` cards found in the page
source, each with the result of `card.find('a')`. -/
structure ListingEnv where
  driverStart : Except PyError Unit
  pageLoad : Except PyError Unit
  cards : List (Option Anchor)

/-- The `for card in cards` loop of `get_ap_news_list_selenium`: stop once
`max_articles` are collected, skip cards without an `<a>` tag, and raise
`KeyError` on an anchor without `href`. -/
def collectCards (maxArticles : Nat) :
    List (Option Anchor) → List NewsItem → Except PyError (List NewsItem)
  | [], acc => .ok acc
  | card :: rest, acc =>
    if acc.length ≥ maxArticles then .ok acc
    else
      match card with
      | none => collectCards maxArticles rest acc
      | some a =>
        match a.href with
        | none => .error (.keyError "href")
        | some link =>
          collectCards maxArticles rest (acc ++ [⟨a.text, link⟩])

/-- Sequencing of the listing phase: a failed driver constructor propagates
(it happens before the `try`); a failed page load propagates (the
`try ... finally` has no `except` clause, it only quits the driver);
otherwise the card loop runs on the rendered page. -/
def listingAux (cards : List (Option Anchor)) (maxArticles : Nat) :
    Except PyError Unit → Except PyError Unit → Except PyError (List NewsItem)
  | .error e, _ => .error e
  | .ok _, .error e => .error e
  | .ok _, .ok _ => collectCards maxArticles cards []

/-- `get_ap_news_list_selenium` from `crawl_apnews.py`. -/
def get_ap_news_list_selenium (env : ListingEnv) (topic : String)
    (maxArticles : Nat) : Except PyError (List NewsItem) :=
  listingAux env.cards maxArticles env.driverStart env.pageLoad

/-- External outcomes for one call of `get_ap_article_content`: whether any
statement of its `try` block raises (network error, parse error, date-format
error — all caught by its bare `except`), the texts of the selected
`div.RichTextStoryBody p` paragraphs, and the formatted publish date derived
from the `article:published_time` meta tag (empty when absent). -/
structure ArticleEnv where
  failure : Option PyError
  paragraphs : List String
  publishDate : String

/-- `get_ap_article_content` from `crawl_apnews.py`: total, returning the
pair (content, publish_date); every internal failure is absorbed into the
empty pair. -/
def get_ap_article_content (env : ArticleEnv) : String × String :=
  match env.failure with
  | some _ => ("", "")
  | none => (String.intercalate " " env.paragraphs, env.publishDate)

/-- Environment of one `get_ap_news_with_content` run: the listing phase and
the per-URL article fetch outcomes. -/
structure FetchEnv where
  listing : ListingEnv
  article : String → ArticleEnv

/-- The `for i, news in enumerate(news_list, 1)` loop of
`get_ap_news_with_content`: fetch each article body and append a five-field
record only when the body is non-empty. -/
def buildDetailed (env : FetchEnv) :
    List NewsItem → List RawArticle → List RawArticle
  | [], detailed => detailed
  | news :: rest, detailed =>
    let res := get_ap_article_content (env.article news.url)
    if res.1 ≠ "" then
      buildDetailed env rest
        (detailed ++ [⟨news.title, news.url, res.1, res.2, "AP News"⟩])
    else buildDetailed env rest detailed

/-- Continuation of `get_ap_news_with_content` after the listing call: a
failure of the listing phase propagates; `if not news_list: return []`;
otherwise the detail loop runs. -/
def withContentAux (env : FetchEnv) :
    Except PyError (List NewsItem) → Except PyError (List RawArticle)
  | .error e => .error e
  | .ok news_list =>
    if news_list.isEmpty then .ok []
    else .ok (buildDetailed env news_list [])

/-- `get_ap_news_with_content` from `crawl_apnews.py`. -/
def get_ap_news_with_content (env : FetchEnv) (topic : String)
    (maxArticles : Nat) : Except PyError (List RawArticle) :=
  withContentAux env (get_ap_news_list_selenium env.listing topic maxArticles)

/-! ## `NewsSummaryPipeline` orchestration -/

/-- Python `str()` of a value substituted into the template (container
values abbreviated; the Jinja renderer is an external collaborator, spec §6,
and the pipeline never inspects the rendered text). -/
def pyStr : PyJson → String
  | .null => "None"
  | .bool true => "True"
  | .bool false => "False"
  | .num lit => lit
  | .str s => s
  | .arr _ => "[list]"
  | .obj _ => "[dict]"

/-- The external Jinja `Template.render` call of `generate_html`, modelled as
a pure projection of the template text, the four summary fields, the article
list and the timestamp (spec §6: renderer is a pure function). -/
def renderTemplate (tmpl : String) (topic summary entities timeline : PyJson)
    (news : List RawArticle) (now : String) : String :=
  String.intercalate "|"
    ([tmpl, pyStr topic, pyStr summary, pyStr entities, pyStr timeline, now]
      ++ news.map (fun a => a.title))

/-- Python subscript `d[k]`: `dict` lookup (`KeyError` when absent),
`TypeError` for a `list` indexed by a string, for a `str`, for `None` and for
other non-subscriptable values. -/
def pySubscript (d : PyJson) (k : String) : Except PyError PyJson :=
  match d with
  | .obj kvs =>
    match kvs.lookup k with
    | some v => .ok v
    | none => .error (.keyError k)
  | _ => .error .typeError

/-- External outcomes of one `run_pipeline` run: the article list returned by
the fetch stage (modelled from the spec: `fetch_news_data` delegates to
`get_cnn_news_with_content` from `crawl_cnn`, a module not in the repository
snapshot; spec §6 says a fetcher returns a possibly-empty list of RawArticle),
the outcome of the `ChatOpenAI` call inside the LLM chain (the raw response
text, or a raised exception), the result of reading `template.html`, and the
formatted `datetime.now()` timestamp. -/
structure PipelineEnv where
  fetched : List RawArticle
  llmRaw : Except PyError String
  templateStr : Except PyError String
  now : String

/-- Second half of `extract_entities_and_summary`'s chain: the `SummaryParser`
stage either returns the parsed dict or raises into the surrounding
`except Exception` handler, which prints `"Error: ..."` after any diagnostics
the parser already printed, and falls through returning `None`. -/
def parseOutcome : Except PyError PyJson × List String →
    Option PyJson × List String
  | (.ok d, logs) => (some d, logs)
  | (.error e, logs) => (none, logs ++ ["Error: " ++ pyErrorMsg e ++ "\n\n"])

/-- `NewsSummaryPipeline.extract_entities_and_summary` as a function of the
model-call outcome: the chain `prompt | self.llm | SummaryParser()` invokes
the model and then the parser; the `except Exception` handler catches a
failure of either stage, prints `"Error: ..."` and returns `None`.  First
component: the returned value (`none` models Python `None`); second: the
printed lines. -/
def extractResult : Except PyError String → Option PyJson × List String
  | .error e => (none, ["Error: " ++ pyErrorMsg e ++ "\n\n"])
  | .ok raw => parseOutcome (SummaryParser.parse raw)

def extract_entities_and_summary (env : PipelineEnv)
    (news_list : List RawArticle) : Option PyJson × List String :=
  extractResult env.llmRaw

/-- `NewsSummaryPipeline.generate_html` as a function of the template read
outcome and `processed_data`: read `template.html`, then render with
`processed_data['topic']`, `['summary']`, `['entities']`, `['timeline']` (the
keyword order of the source).  When `processed_data` is `None` the first
subscript raises `TypeError`; a failing subscript aborts the render. -/
def renderWithTemplate : Except PyError String → Option PyJson →
    List RawArticle → String → Except PyError String
  | .error e, _, _, _ => .error e
  | .ok _, none, _, _ => .error .typeError
  | .ok tmpl, some d, news_list, now =>
    match pySubscript d "topic" with
    | .error e => .error e
    | .ok topic =>
      match pySubscript d "summary" with
      | .error e => .error e
      | .ok summary =>
        match pySubscript d "entities" with
        | .error e => .error e
        | .ok entities =>
          match pySubscript d "timeline" with
          | .error e => .error e
          | .ok timeline =>
            .ok (renderTemplate tmpl topic summary entities timeline news_list now)

def generate_html (env : PipelineEnv) (processed_data : Option PyJson)
    (news_list : List RawArticle) : Except PyError String :=
  renderWithTemplate env.templateStr processed_data news_list env.now

/-- Observable outcome of one `run_pipeline` call: the lines printed by the
extraction stage, the file write performed at step 5 (`none` when control
never reaches the write), and the returned path or the uncaught exception. -/
structure RunOutcome where
  logs : List String
  written : Option (String × String)
  result : Except PyError String

/-- Step 5 of `run_pipeline`: the `open(output_file, 'w')` write, reached
only when `generate_html` returned a document body. -/
def persistStep (output_file : String) (logs : List String) :
    Except PyError String → RunOutcome
  | .error e => { logs := logs, written := none, result := .error e }
  | .ok html =>
    { logs := logs, written := some (output_file, html),
      result := .ok output_file }

/-- `NewsSummaryPipeline.run_pipeline` from `news_pipeline.py`: fetch, dedupe,
extract, render, then write `html_content` to `output_file`.  There is no
branch between the stages; an exception raised by `generate_html` propagates
and the write never happens. -/
def run_pipeline (env : PipelineEnv) (topic : String) (output_file : String) :
    RunOutcome :=
  let news_data := env.fetched
  let unique_news := deduplicate_news news_data
  let extr := extract_entities_and_summary env unique_news
  persistStep output_file extr.2 (generate_html env extr.1 unique_news)

/-! ## Lemmas about the deduplicator -/

lemma dedupAux_sublist (L : List RawArticle) (seen : List String) :
    (dedupAux L seen).Sublist L := by
  induction L generalizing seen with
  | nil => simp [dedupAux]
  | cons a rest ih =>
    by_cases h : dedupKey a ∈ seen
    · simpa [dedupAux, h] using List.Sublist.cons a (ih seen)
    · simpa [dedupAux, h] using List.Sublist.cons₂ a (ih (dedupKey a :: seen))

lemma dedupAux_not_seen (L : List RawArticle) (seen : List String) :
    ∀ a ∈ dedupAux L seen, dedupKey a ∉ seen := by
  induction L generalizing seen with
  | nil => simp [dedupAux]
  | cons a rest ih =>
    by_cases h : dedupKey a ∈ seen
    · simpa [dedupAux, h] using ih seen
    · intro b hb
      simp only [dedupAux, h, if_false, List.mem_cons] at hb
      rcases hb with rfl | hb
      · exact h
      · have := ih (dedupKey a :: seen) b hb
        exact fun hs => this (List.mem_cons_of_mem _ hs)

lemma dedupAux_map_nodup (L : List RawArticle) (seen : List String) :
    ((dedupAux L seen).map dedupKey).Nodup := by
  induction L generalizing seen with
  | nil => simp [dedupAux]
  | cons a rest ih =>
    by_cases h : dedupKey a ∈ seen
    · simpa [dedupAux, h] using ih seen
    · simp only [dedupAux, h, if_false, List.map_cons, List.nodup_cons]
      refine ⟨?_, ih (dedupKey a :: seen)⟩
      intro hmem
      rcases List.mem_map.mp hmem with ⟨b, hb, hkey⟩
      apply dedupAux_not_seen rest (dedupKey a :: seen) b hb
      rw [hkey]
      exact List.mem_cons_self _ _

lemma dedupAux_find (L : List RawArticle) (seen : List String) (k : String)
    (hk : k ∉ seen) :
    (dedupAux L seen).find? (fun a => dedupKey a == k) =
      L.find? (fun a => dedupKey a == k) := by
  induction L generalizing seen with
  | nil => rfl
  | cons a rest ih =>
    by_cases h : dedupKey a ∈ seen
    · have hne0 : dedupKey a ≠ k := fun heq => hk (heq ▸ h)
      rw [dedupAux, if_pos h, ih seen hk]
      simp [List.find?_cons, hne0]
    · by_cases heq : dedupKey a = k
      · rw [dedupAux, if_neg h]
        simp [List.find?_cons, heq]
      · have hk' : k ∉ dedupKey a :: seen := by
          intro hmem
          rcases List.mem_cons.mp hmem with h1 | h2
          · exact heq h1.symm
          · exact hk h2
        rw [dedupAux, if_neg h]
        simp [List.find?_cons, heq]
        exact ih (dedupKey a :: seen) hk'

lemma dedupAux_fixed (M : List RawArticle) (seen : List String)
    (h1 : (M.map dedupKey).Nodup) (h2 : ∀ a ∈ M, dedupKey a ∉ seen) :
    dedupAux M seen = M := by
  induction M generalizing seen with
  | nil => rfl
  | cons a rest ih =>
    have ha : dedupKey a ∉ seen := h2 a (List.mem_cons_self _ _)
    rw [dedupAux, if_neg ha]
    congr 1
    refine ih (dedupKey a :: seen) (by simpa [List.nodup_cons] using h1.of_cons) ?_
    intro b hb hmem
    rcases List.mem_cons.mp hmem with h1' | h2'
    · have : dedupKey a ∉ rest.map dedupKey := (List.nodup_cons.mp (by simpa using h1)).1
      exact this (h1' ▸ List.mem_map_of_mem dedupKey hb)
    · exact h2 b (List.mem_cons_of_mem _ hb) h2'

/-- C3: `deduplicate_news` keeps at most one article per dedup key (the
key-image of the output has no duplicates), the output is a sublist of the
input (so retained articles are unmutated input articles in their original
relative order), for every key the retained article is the first input
article carrying that key, and the output is no longer than the input. -/
theorem deduplicate_news_spec (L : List RawArticle) :
    ((deduplicate_news L).map dedupKey).Nodup ∧
    (deduplicate_news L).Sublist L ∧
    (∀ k : String,
      (deduplicate_news L).find? (fun a => dedupKey a == k) =
        L.find? (fun a => dedupKey a == k)) ∧
    (deduplicate_news L).length ≤ L.length := by
  refine ⟨dedupAux_map_nodup L [], dedupAux_sublist L [], ?_, ?_⟩
  · intro k
    exact dedupAux_find L [] k (List.not_mem_nil k)
  · exact (dedupAux_sublist L []).length_le

/-- C7: deduplication is idempotent — running `deduplicate_news` on its own
output returns that output unchanged. -/
theorem deduplicate_news_idempotent (L : List RawArticle) :
    deduplicate_news (deduplicate_news L) = deduplicate_news L := by
  unfold deduplicate_news
  exact dedupAux_fixed (dedupAux L []) [] (dedupAux_map_nodup L [])
    (fun a ha => List.not_mem_nil _)

/-! ## Lemmas about the validator -/

lemma dictContains_eq_lookup (kvs : List (String × PyJson)) (k : String) :
    dictContains kvs k = (kvs.lookup k).isSome := by
  induction kvs with
  | nil => rfl
  | cons p rest ih =>
    cases hb : (k == p.1) with
    | true => simp [dictContains, List.lookup, List.any, hb]
    | false => simpa [dictContains, List.lookup, List.any, hb] using ih

lemma lookup_append_some (l1 l2 : List (String × PyJson)) (k : String)
    (v : PyJson) (h : l1.lookup k = some v) : (l1 ++ l2).lookup k = some v := by
  induction l1 with
  | nil => simp [List.lookup] at h
  | cons p rest ih =>
    cases hb : (k == p.1) with
    | true =>
      simp only [List.lookup, hb] at h
      simp only [List.cons_append, List.lookup, hb]
      exact h
    | false =>
      simp only [List.lookup, hb] at h
      simp only [List.cons_append, List.lookup, hb]
      exact ih h

lemma lookup_append_none (l1 l2 : List (String × PyJson)) (k : String)
    (h : l1.lookup k = none) : (l1 ++ l2).lookup k = l2.lookup k := by
  induction l1 with
  | nil => rfl
  | cons p rest ih =>
    cases hb : (k == p.1) with
    | true =>
      simp only [List.lookup, hb] at h
      exact absurd h (by simp)
    | false =>
      simp only [List.lookup, hb] at h
      simp only [List.cons_append, List.lookup, hb]
      exact ih h

lemma lookup_singleton_self (k : String) (v : PyJson) :
    ([(k, v)] : List (String × PyJson)).lookup k = some v := by
  have hb : (k == k) = true := by simp
  simp only [List.lookup, hb]

lemma lookup_singleton_ne (k k' : String) (v : PyJson) (h : k' ≠ k) :
    ([(k, v)] : List (String × PyJson)).lookup k' = none := by
  have hb : (k' == k) = false := by simp [h]
  simp only [List.lookup, hb]

/-- Main invariant of the required-field loop on a `dict`: it returns the
dict without raising, every key/value already present is preserved, and every
required field originally absent ends up bound to `"na"` with its diagnostic
among the printed lines. -/
lemma checkFields_obj (fs : List String) (kvs : List (String × PyJson)) :
    ∃ kvs' logs, checkFields fs (.obj kvs) = (.ok (.obj kvs'), logs) ∧
      (∀ k v, kvs.lookup k = some v → kvs'.lookup k = some v) ∧
      (∀ f ∈ fs, kvs.lookup f = none →
        kvs'.lookup f = some (.str "na") ∧ (f ++ " is not in result") ∈ logs) := by
  induction fs generalizing kvs with
  | nil =>
    exact ⟨kvs, [], rfl, fun k v h => h, fun f hf => absurd hf (List.not_mem_nil f)⟩
  | cons f rest ih =>
    by_cases hc : (kvs.lookup f).isSome
    · obtain ⟨kvs', logs, heq, hpres, hmiss⟩ := ih kvs
      refine ⟨kvs', logs, ?_, hpres, ?_⟩
      · rw [checkFields]
        simp only [pyContains, dictContains_eq_lookup, hc]
        exact heq
      · intro g hg hnone
        rcases List.mem_cons.mp hg with rfl | hg'
        · rw [hnone] at hc
          simp at hc
        · exact hmiss g hg' hnone
    · have hnone : kvs.lookup f = none := by
        cases h : kvs.lookup f with
        | none => rfl
        | some v => rw [h] at hc; simp at hc
      have hins : dictInsert kvs f (.str "na") = kvs ++ [(f, .str "na")] := by
        rw [dictInsert, if_neg (by simp [dictContains_eq_lookup, hnone])]
      obtain ⟨kvs', logs, heq, hpres, hmiss⟩ := ih (kvs ++ [(f, .str "na")])
      have hstep :
          checkFields (f :: rest) (.obj kvs) =
            (.ok (.obj kvs'), (f ++ " is not in result") :: logs) := by
        rw [checkFields]
        simp only [pyContains, dictContains_eq_lookup, hnone, Option.isSome_none,
          pySetItem, hins]
        rw [heq]
      refine ⟨kvs', (f ++ " is not in result") :: logs, hstep, ?_, ?_⟩
      · intro k v hk
        exact hpres k v (lookup_append_some kvs _ k v hk)
      · intro g hg hgnone
        by_cases hgf : g = f
        · subst hgf
          have hlast : (kvs ++ [(g, PyJson.str "na")]).lookup g = some (.str "na") := by
            rw [lookup_append_none kvs _ g hgnone]
            exact lookup_singleton_self g (.str "na")
          exact ⟨hpres g (.str "na") hlast, List.mem_cons_self _ _⟩
        · rcases List.mem_cons.mp hg with rfl | hg'
          · exact absurd rfl hgf
          · have : (kvs ++ [(f, PyJson.str "na")]).lookup g = none := by
              rw [lookup_append_none kvs _ g hgnone]
              exact lookup_singleton_ne f g (.str "na") hgf
            obtain ⟨h1, h2⟩ := hmiss g hg' this
            exact ⟨h1, List.mem_cons_of_mem _ h2⟩

/-- If every field of `fs` is already a key of the dict, the loop is the
identity and prints nothing. -/
lemma checkFields_all_present (fs : List String)
    (kvs : List (String × PyJson)) (h : ∀ f ∈ fs, (kvs.lookup f).isSome) :
    checkFields fs (.obj kvs) = (.ok (.obj kvs), []) := by
  induction fs with
  | nil => rfl
  | cons f rest ih =>
    rw [checkFields]
    simp only [pyContains, dictContains_eq_lookup, h f (List.mem_cons_self _ _)]
    exact ih (fun g hg => h g (List.mem_cons_of_mem _ hg))

/-- Lookup of a key in the value returned by the validator (meaningful only
when that value is a dict). -/
def objLookup : Except PyError PyJson → String → Option PyJson
  | .ok (.obj kvs), k => kvs.lookup k
  | _, _ => none

/-- Whether the validator returned a dict (rather than raising or returning
a non-dict value). -/
def returnsObjB : Except PyError PyJson → Bool
  | .ok (.obj _) => true
  | _ => false

/-- Whether the validator returned a dict containing all four required keys. -/
def hasRequiredB : Except PyError PyJson → Bool
  | .ok (.obj kvs) => requiredFields.all (fun f => (kvs.lookup f).isSome)
  | _ => false

/-- C1, counterexample: `SummaryParser.parse` is not total and does not
always produce exactly four string-valued fields.  On the input `"3"`
(well-formed JSON that is not an object) `json.loads` succeeds, the
membership test `'topic' in 3` raises `TypeError`, and only
`json.JSONDecodeError` is caught, so the exception escapes the validator.
On a well-formed object input the parsed dict is returned as-is: a five-key
object with a boolean `topic` yields a five-field result with a non-string
value. -/
theorem validator_totality_cex :
    (SummaryParser.parse "3").1 = .error .typeError ∧
    (SummaryParser.parse
        "\x7b\"topic\":true,\"entities\":\"Y\",\"summary\":\"Z\",\"timeline\":\"W\",\"extra\":1\x7d").1 =
      .ok (.obj [("topic", .bool true), ("entities", .str "Y"),
                 ("summary", .str "Z"), ("timeline", .str "W"),
                 ("extra", .num "1")]) :=
  ⟨rfl, rfl⟩

/-- C1, amended: for every string input that is not well-formed JSON, or
whose JSON value is an object, `SummaryParser.parse` returns — without
raising — a dict in which all four required fields are present (absent ones
filled with `"na"`); present values, possibly non-string, and extra keys pass
through.  On well-formed JSON that is not an object the validator can raise a
`TypeError` past its boundary. -/
theorem validator_totality_amended (s : String)
    (h : jsonLoads s = none ∨ ∃ kvs, jsonLoads s = some (.obj kvs)) :
    hasRequiredB (SummaryParser.parse s).1 = true := by
  rcases h with h | ⟨kvs, h⟩
  · have hps : SummaryParser.parse s = (.ok allNa, []) := by
      unfold SummaryParser.parse
      rw [h]
    rw [hps]
    rfl
  · have hps : SummaryParser.parse s = checkFields requiredFields (.obj kvs) := by
      unfold SummaryParser.parse
      rw [h]
    obtain ⟨kvs', logs, heq, hpres, hmiss⟩ := checkFields_obj requiredFields kvs
    rw [hps, heq]
    simp only [hasRequiredB, List.all_eq_true]
    intro f hf
    cases hl : kvs.lookup f with
    | some v =>
      rw [hpres f v hl]
      rfl
    | none =>
      rw [(hmiss f hf hl).1]
      rfl

/-- C1, witness for the amended theorem at the prose input `"hello"`. -/
theorem validator_totality_amended_witness :
    hasRequiredB (SummaryParser.parse "hello").1 = true :=
  validator_totality_amended "hello" (Or.inl rfl)

/-- C4: whenever the input decodes to exactly the four-key object
`topic ↦ X, entities ↦ Y, summary ↦ Z, timeline ↦ W` (all strings), the
validator returns exactly that object, and prints nothing. -/
theorem parse_wellformed (s X Y Z W : String)
    (h : jsonLoads s = some (.obj [("topic", .str X), ("entities", .str Y),
                                   ("summary", .str Z), ("timeline", .str W)])) :
    SummaryParser.parse s =
      (.ok (.obj [("topic", .str X), ("entities", .str Y),
                  ("summary", .str Z), ("timeline", .str W)]), []) := by
  have hps : SummaryParser.parse s =
      checkFields requiredFields
        (.obj [("topic", .str X), ("entities", .str Y),
               ("summary", .str Z), ("timeline", .str W)]) := by
    unfold SummaryParser.parse
    rw [h]
  rw [hps]
  apply checkFields_all_present
  intro f hf
  simp only [requiredFields, List.mem_cons, List.not_mem_nil, or_false] at hf
  rcases hf with rfl | rfl | rfl | rfl <;> rfl

/-- C4, witness at the literal encoding of
`topic ↦ "X", entities ↦ "Y", summary ↦ "Z", timeline ↦ "W"`. -/
theorem parse_wellformed_witness :
    SummaryParser.parse
        "\x7b\"topic\":\"X\",\"entities\":\"Y\",\"summary\":\"Z\",\"timeline\":\"W\"\x7d" =
      (.ok (.obj [("topic", .str "X"), ("entities", .str "Y"),
                  ("summary", .str "Z"), ("timeline", .str "W")]), []) :=
  parse_wellformed _ "X" "Y" "Z" "W" rfl

/-- C5: on any input that decodes to an object, the validator returns a dict;
every key present in the parsed object keeps its parsed value unchanged (no
coercion), and every required field absent from the parsed object is bound to
the sentinel `"na"` with the diagnostic naming it among the printed lines. -/
theorem parse_missing_fields (s : String) (kvs : List (String × PyJson))
    (h : jsonLoads s = some (.obj kvs)) :
    returnsObjB (SummaryParser.parse s).1 = true ∧
    (∀ k v, kvs.lookup k = some v →
      objLookup (SummaryParser.parse s).1 k = some v) ∧
    (∀ f ∈ requiredFields, kvs.lookup f = none →
      objLookup (SummaryParser.parse s).1 f = some (.str "na") ∧
      (f ++ " is not in result") ∈ (SummaryParser.parse s).2) := by
  have hps : SummaryParser.parse s = checkFields requiredFields (.obj kvs) := by
    unfold SummaryParser.parse
    rw [h]
  obtain ⟨kvs', logs, heq, hpres, hmiss⟩ := checkFields_obj requiredFields kvs
  rw [hps, heq]
  refine ⟨rfl, ?_, ?_⟩
  · intro k v hk
    simp only [objLookup]
    exact hpres k v hk
  · intro f hf hnone
    obtain ⟨h1, h2⟩ := hmiss f hf hnone
    exact ⟨by simp only [objLookup]; exact h1, h2⟩

/-- C5, witness at an input missing only `entities`: the result's `entities`
is `"na"`, its diagnostic is printed, and the other three fields pass through
unchanged. -/
theorem parse_missing_fields_witness :
    objLookup (SummaryParser.parse
        "\x7b\"topic\":\"X\",\"summary\":\"Z\",\"timeline\":\"W\"\x7d").1 "entities" =
      some (.str "na") ∧
    ("entities" ++ " is not in result") ∈
      (SummaryParser.parse
        "\x7b\"topic\":\"X\",\"summary\":\"Z\",\"timeline\":\"W\"\x7d").2 ∧
    objLookup (SummaryParser.parse
        "\x7b\"topic\":\"X\",\"summary\":\"Z\",\"timeline\":\"W\"\x7d").1 "topic" =
      some (.str "X") := by
  obtain ⟨hobj, hpres, hmiss⟩ :=
    parse_missing_fields
      "\x7b\"topic\":\"X\",\"summary\":\"Z\",\"timeline\":\"W\"\x7d"
      [("topic", .str "X"), ("summary", .str "Z"), ("timeline", .str "W")] rfl
  obtain ⟨h1, h2⟩ := hmiss "entities" (by simp [requiredFields]) rfl
  exact ⟨h1, h2, hpres "topic" (.str "X") rfl⟩

/-- C6: on every input on which `json.loads` raises `JSONDecodeError` (prose,
truncated or otherwise ill-formed text, including the empty string), the
validator propagates no error and returns the dict with all four fields set
to `"na"`. -/
theorem parse_decode_failure (s : String) (h : jsonLoads s = none) :
    SummaryParser.parse s = (.ok allNa, []) := by
  unfold SummaryParser.parse
  rw [h]

/-- C6, witness at a prose input. -/
theorem parse_decode_failure_witness :
    SummaryParser.parse "The news was mostly about the weather." =
      (.ok allNa, []) :=
  parse_decode_failure "The news was mostly about the weather." rfl

/-! ## Lemmas about the AP News fetcher -/

def isOkB {ε α : Type} : Except ε α → Bool
  | .ok _ => true
  | .error _ => false

lemma collectCards_length (maxA : Nat) (cards : List (Option Anchor))
    (acc l : List NewsItem) (h : collectCards maxA cards acc = .ok l)
    (hacc : acc.length ≤ maxA) : l.length ≤ maxA := by
  induction cards generalizing acc with
  | nil =>
    simp only [collectCards] at h
    injection h with h'
    exact h' ▸ hacc
  | cons card rest ih =>
    cases card with
    | none =>
      simp only [collectCards] at h
      by_cases hge : acc.length ≥ maxA
      · rw [if_pos hge] at h
        injection h with h'
        exact h' ▸ hacc
      · rw [if_neg hge] at h
        exact ih acc h hacc
    | some a =>
      cases ha : a.href with
      | none =>
        simp only [collectCards, ha] at h
        by_cases hge : acc.length ≥ maxA
        · rw [if_pos hge] at h
          injection h with h'
          exact h' ▸ hacc
        · rw [if_neg hge] at h
          exact absurd h (by simp)
      | some link =>
        simp only [collectCards, ha] at h
        by_cases hge : acc.length ≥ maxA
        · rw [if_pos hge] at h
          injection h with h'
          exact h' ▸ hacc
        · rw [if_neg hge] at h
          refine ih _ h ?_
          have hlt : acc.length < maxA := Nat.lt_of_not_le hge
          simpa using hlt

lemma buildDetailed_invariant (env : FetchEnv) (items : List NewsItem)
    (acc : List RawArticle)
    (hacc : ∀ a ∈ acc, a.content ≠ "" ∧ a.source = "AP News") :
    (∀ a ∈ buildDetailed env items acc,
      a.content ≠ "" ∧ a.source = "AP News") ∧
    (buildDetailed env items acc).length ≤ acc.length + items.length := by
  induction items generalizing acc with
  | nil => exact ⟨hacc, by simp [buildDetailed]⟩
  | cons news rest ih =>
    rw [buildDetailed]
    by_cases hc : (get_ap_article_content (env.article news.url)).1 ≠ ""
    · rw [if_pos hc]
      have hacc' : ∀ a ∈ acc ++
          [⟨news.title, news.url, (get_ap_article_content (env.article news.url)).1,
            (get_ap_article_content (env.article news.url)).2, "AP News"⟩],
          a.content ≠ "" ∧ a.source = "AP News" := by
        intro a ha
        rcases List.mem_append.mp ha with ha' | ha'
        · exact hacc a ha'
        · rcases List.mem_singleton.mp ha' with rfl
          exact ⟨hc, rfl⟩
      obtain ⟨h1, h2⟩ := ih _ hacc'
      refine ⟨h1, ?_⟩
      simp only [List.length_append, List.length_cons, List.length_nil] at h2 ⊢
      omega
    · rw [if_neg hc]
      obtain ⟨h1, h2⟩ := ih acc hacc
      exact ⟨h1, h2.trans (by simp [Nat.add_le_add_iff_left])⟩

/-- C9, counterexample: if the page does not render within the 20-second
`WebDriverWait`, the `TimeoutException` escapes `get_ap_news_list_selenium`
(whose `try ... finally` only quits the driver) and propagates through
`get_ap_news_with_content` to the orchestrator. -/
theorem fetcher_raises_cex :
    get_ap_news_with_content
      { listing := { driverStart := .ok (), pageLoad := .error .timeoutError,
                     cards := [] },
        article := fun _ =>
          { failure := none, paragraphs := [], publishDate := "" } }
      "openai" 20 = .error .timeoutError := rfl

/-- C9, amended: the listing phase of the AP News fetcher can propagate
exceptions (driver start failure, page-load timeout, a link card without an
`href`) to the caller; but whenever the listing phase returns a list,
`get_ap_news_with_content` returns a list without raising — the per-article
body fetch absorbs its own failures. -/
theorem fetcher_amended (env : FetchEnv) (topic : String) (maxA : Nat)
    (items : List NewsItem)
    (h : get_ap_news_list_selenium env.listing topic maxA = .ok items) :
    isOkB (get_ap_news_with_content env topic maxA) = true := by
  rw [get_ap_news_with_content, h]
  by_cases hi : items.isEmpty <;> simp [withContentAux, hi, isOkB]

/-- C9, witness for the amended theorem: a run whose listing phase succeeds
with one card returns a list. -/
theorem fetcher_amended_witness :
    isOkB (get_ap_news_with_content
      { listing := { driverStart := .ok (), pageLoad := .ok (),
                     cards := [some ⟨"T1", some "u1"⟩] },
        article := fun _ =>
          { failure := none, paragraphs := ["body"], publishDate := "" } }
      "openai" 20) = true :=
  fetcher_amended _ "openai" 20 [⟨"T1", "u1"⟩] rfl

/-- C10: every record returned by `get_ap_news_with_content` is a five-field
RawArticle with non-empty `content` (articles whose body extraction failed
are dropped, not emitted empty) and `source = "AP News"`, the result holds at
most `max_articles` records, and the default bound `max_articles_count`
is 20. -/
theorem get_ap_news_invariants (env : FetchEnv) (topic : String)
    (maxA : Nat) (l : List RawArticle)
    (h : get_ap_news_with_content env topic maxA = .ok l) :
    (∀ a ∈ l, a.content ≠ "" ∧ a.source = "AP News") ∧
    l.length ≤ maxA ∧ max_articles_count = 20 := by
  rw [get_ap_news_with_content] at h
  cases hls : get_ap_news_list_selenium env.listing topic maxA with
  | error e =>
    rw [hls] at h
    simp only [withContentAux] at h
    exact absurd h (by simp)
  | ok items =>
    rw [hls] at h
    simp only [withContentAux] at h
    have hitems : items.length ≤ maxA := by
      rw [get_ap_news_list_selenium] at hls
      cases hd : env.listing.driverStart with
      | error e =>
        rw [hd] at hls
        simp only [listingAux] at hls
        exact absurd hls (by simp)
      | ok u =>
        rw [hd] at hls
        cases hp : env.listing.pageLoad with
        | error e =>
          rw [hp] at hls
          simp only [listingAux] at hls
          exact absurd hls (by simp)
        | ok u' =>
          rw [hp] at hls
          simp only [listingAux] at hls
          exact collectCards_length maxA env.listing.cards [] items hls
            (Nat.zero_le _)
    by_cases hi : items.isEmpty
    · rw [if_pos hi] at h
      injection h with h'
      subst h'
      exact ⟨by simp, by simp, rfl⟩
    · rw [if_neg hi] at h
      injection h with h'
      subst h'
      obtain ⟨h1, h2⟩ := buildDetailed_invariant env items [] (by simp)
      have h2' : (buildDetailed env items []).length ≤ items.length := by
        simpa using h2
      exact ⟨h1, h2'.trans hitems, rfl⟩

/-- C10, witness: a concrete run yielding one article respects the bound. -/
theorem get_ap_news_invariants_witness :
    ([⟨"T1", "u1", "body text", "2024-01-01", "AP News"⟩] :
        List RawArticle).length ≤ 20 ∧ max_articles_count = 20 := by
  have h := get_ap_news_invariants
    { listing := { driverStart := .ok (), pageLoad := .ok (),
                   cards := [some ⟨"T1", some "u1"⟩] },
      article := fun _ =>
        { failure := none, paragraphs := ["body", "text"],
          publishDate := "2024-01-01" } }
    "openai" 20 [⟨"T1", "u1", "body text", "2024-01-01", "AP News"⟩] rfl
  exact ⟨h.2.1, h.2.2⟩

/-! ## Lemmas about the orchestrator -/

lemma pySubscript_ok (kvs : List (String × PyJson)) (f : String)
    (h : (kvs.lookup f).isSome) : ∃ v, pySubscript (.obj kvs) f = .ok v := by
  cases hl : kvs.lookup f with
  | some v => exact ⟨v, by simp only [pySubscript, hl]⟩
  | none => rw [hl] at h; simp at h

lemma renderWithTemplate_ok (tmpl : String) (kvs' : List (String × PyJson))
    (news : List RawArticle) (now : String)
    (h4 : ∀ f ∈ requiredFields, (kvs'.lookup f).isSome) :
    ∃ html, renderWithTemplate (.ok tmpl) (some (.obj kvs')) news now =
      .ok html := by
  obtain ⟨v1, h1⟩ := pySubscript_ok kvs' "topic" (h4 _ (by simp [requiredFields]))
  obtain ⟨v2, h2⟩ := pySubscript_ok kvs' "summary" (h4 _ (by simp [requiredFields]))
  obtain ⟨v3, h3⟩ := pySubscript_ok kvs' "entities" (h4 _ (by simp [requiredFields]))
  obtain ⟨v4, h4'⟩ := pySubscript_ok kvs' "timeline" (h4 _ (by simp [requiredFields]))
  refine ⟨renderTemplate tmpl v1 v2 v3 v4 news now, ?_⟩
  simp only [renderWithTemplate, h1, h2, h3, h4']

lemma renderWithTemplate_none (ts : Except PyError String)
    (news : List RawArticle) (now : String) :
    ∃ e, renderWithTemplate ts none news now = .error e := by
  cases ts with
  | error e => exact ⟨e, rfl⟩
  | ok t => exact ⟨.typeError, rfl⟩

/-- A run environment in which every fetcher came back empty but the model
call and the template read succeed. -/
def emptyFetchEnv : PipelineEnv :=
  { fetched := [],
    llmRaw := .ok
      "\x7b\"topic\":\"t\",\"entities\":\"e\",\"summary\":\"s\",\"timeline\":\"tl\"\x7d",
    templateStr := .ok "TEMPLATE",
    now := "2024-01-01 00:00" }

/-- C2, counterexample: `run_pipeline` has no early exit on an empty fetch.
With every fetcher returning no articles (and the model and template calls
succeeding), the run still reaches step 5 and writes the output document, and
nothing is printed by the extraction stage — in particular no "no articles
found" report exists anywhere in `run_pipeline`. -/
theorem run_pipeline_empty_fetch_cex :
    (run_pipeline emptyFetchEnv "obscure-topic-x" "news_summary.html").written.isSome
        = true ∧
    (run_pipeline emptyFetchEnv "obscure-topic-x" "news_summary.html").logs = [] :=
  ⟨rfl, rfl⟩

/-- C2, amended: when the fetch stage yields an empty list, `run_pipeline`
does not terminate early and reports nothing: it proceeds through dedup,
model invocation, render and write, and whenever the model call returns a
JSON object and the template is readable it writes the output document and
returns the output path. -/
theorem run_pipeline_empty_fetch_amended (env : PipelineEnv)
    (topic output_file raw tmpl : String) (kvs : List (String × PyJson))
    (hf : env.fetched = [])
    (hllm : env.llmRaw = .ok raw)
    (hjson : jsonLoads raw = some (.obj kvs))
    (htmpl : env.templateStr = .ok tmpl) :
    (run_pipeline env topic output_file).written.isSome = true ∧
    (run_pipeline env topic output_file).result = .ok output_file := by
  have hps : SummaryParser.parse raw = checkFields requiredFields (.obj kvs) := by
    unfold SummaryParser.parse
    rw [hjson]
  obtain ⟨kvs', logs, heq, hpres, hmiss⟩ := checkFields_obj requiredFields kvs
  have hfour : ∀ f ∈ requiredFields, (kvs'.lookup f).isSome := by
    intro f hf'
    cases hl : kvs.lookup f with
    | some v => rw [hpres f v hl]; rfl
    | none => rw [(hmiss f hf' hl).1]; rfl
  have hex : extractResult env.llmRaw = (some (.obj kvs'), logs) := by
    rw [hllm]
    simp only [extractResult, hps, heq, parseOutcome]
  obtain ⟨html, hrender⟩ :=
    renderWithTemplate_ok tmpl kvs' (deduplicate_news env.fetched) env.now hfour
  constructor <;>
    simp only [run_pipeline, extract_entities_and_summary, generate_html, hex,
      htmpl, hrender, persistStep, Option.isSome_some]

/-- C2, witness for the amended theorem: the run of `emptyFetchEnv`. -/
theorem run_pipeline_empty_fetch_amended_witness :
    (run_pipeline emptyFetchEnv "obscure-topic-x" "out.html").written.isSome
        = true ∧
    (run_pipeline emptyFetchEnv "obscure-topic-x" "out.html").result =
      .ok "out.html" :=
  run_pipeline_empty_fetch_amended emptyFetchEnv "obscure-topic-x" "out.html"
    "\x7b\"topic\":\"t\",\"entities\":\"e\",\"summary\":\"s\",\"timeline\":\"tl\"\x7d"
    "TEMPLATE"
    [("topic", .str "t"), ("entities", .str "e"),
     ("summary", .str "s"), ("timeline", .str "tl")]
    rfl rfl rfl rfl

/-- C8: when the model invocation raises, `extract_entities_and_summary`
prints the `"Error: ..."` report and returns `None`; `generate_html` then
raises on `None['topic']` (or on the template read), so the run terminates
with an error and the output document is never written. -/
theorem run_pipeline_llm_failure (env : PipelineEnv)
    (topic output_file : String) (e : PyError) (h : env.llmRaw = .error e) :
    (run_pipeline env topic output_file).written = none ∧
    isOkB (run_pipeline env topic output_file).result = false ∧
    ("Error: " ++ pyErrorMsg e ++ "\n\n") ∈
      (run_pipeline env topic output_file).logs := by
  have hex : extractResult env.llmRaw =
      (none, ["Error: " ++ pyErrorMsg e ++ "\n\n"]) := by
    rw [h]
    rfl
  obtain ⟨e', hrender⟩ :=
    renderWithTemplate_none env.templateStr (deduplicate_news env.fetched) env.now
  refine ⟨?_, ?_, ?_⟩ <;>
    simp only [run_pipeline, extract_entities_and_summary, generate_html, hex,
      hrender, persistStep, isOkB, List.mem_singleton]

/-- A run environment whose model call raises. -/
def llmFailEnv : PipelineEnv :=
  { fetched := [⟨"A title", "u", "c", "2024-01-01", "CNN"⟩],
    llmRaw := .error .timeoutError,
    templateStr := .ok "TEMPLATE",
    now := "2024-01-01 00:00" }

/-- C8, witness: a concrete failing-model run writes nothing, ends in error,
and prints the failure report. -/
theorem run_pipeline_llm_failure_witness :
    (run_pipeline llmFailEnv "league of legends" "test1.html").written = none ∧
    isOkB (run_pipeline llmFailEnv "league of legends" "test1.html").result
        = false ∧
    ("Error: " ++ pyErrorMsg .timeoutError ++ "\n\n") ∈
      (run_pipeline llmFailEnv "league of legends" "test1.html").logs :=
  run_pipeline_llm_failure llmFailEnv "league of legends" "test1.html"
    .timeoutError rfl

example : jsonLoads "" = none := rfl
example : jsonLoads "3" = some (.num "3") := rfl
example : jsonLoads "not json" = none := rfl
example : jsonLoads " \x7b \x7d " = some (.obj []) := rfl
example : jsonLoads "\x7b\"a\":\"b\",\"c\":[1,true,null]\x7d" =
    some (.obj [("a", .str "b"), ("c", .arr [.num "1", .bool true, .null])]) := rfl
example : SummaryParser.parse "" = (.ok allNa, []) := rfl
example : SummaryParser.parse "3" = (.error .typeError, []) := rfl
example : SummaryParser.parse "[]" = (.error .typeError, ["topic is not in result"]) := rfl
example :
    SummaryParser.parse "\x7b\"topic\":\"X\",\"summary\":\"Z\",\"timeline\":\"W\"\x7d" =
    (.ok (.obj [("topic", .str "X"), ("summary", .str "Z"), ("timeline", .str "W"),
                ("entities", .str "na")]),
     ["entities is not in result"]) := rfl
